import Mathlib

/-!
Verification of the `Workspace` component of the ETOS test runner
(`src/etos_test_runner/lib/workspace.py`).

The embedding models the process-wide mutable state that the Python code
manipulates — current working directory, environment variables, the
filesystem (directories and text files), the workspace object's own fields
(`top_dir`, `workspace`, `identifiers`, `global_logs`, `global_artifacts`,
`compressed_workspace`) — as a single state record `S`.  Python methods
become state-transforming functions returning `S × Except Err α`; state
mutations performed before an exception persist, exactly as in Python.
Calls to the external `LogArea` collaborator are recorded in an event trace
and their success or failure is driven by a `LogArea` oracle.  Scope bodies
and `on_create` callbacks are arbitrary state transformers in the
definitions; theorems instantiate them with a small command language
(`Body`) whose interpreter can write files, change directory, read the
environment, succeed or raise.
-/

namespace ETR

/-- An absolute filesystem path, as its list of components. -/
abbrev Path := List String

/-- Render a path the way `str(pathlib.Path(...))` renders an absolute path. -/
def pathStr (p : Path) : String := "/" ++ String.intercalate "/" p

/-- Errors of the model: `FileNotFoundError`, `ValueError` (from
`Path.relative_to`), `KeyError`, an upload failure raised by the `LogArea`
collaborator, and errors raised by user-supplied bodies or callbacks. -/
inductive Err where
  | fileNotFound : Err
  | valueError : Err
  | keyError : Err
  | uploadError : Err
  | userError : Nat → Err
  deriving DecidableEq

deriving instance DecidableEq for Except

/-- Observable events: invocations of the `on_create` callback, the value
yielded by the `test_directory` context manager, and the calls made to the
`LogArea` collaborator. -/
inductive Event where
  | onCreateCall : String → Event
  | yieldDir : Path → Event
  | uploadLogsCall : Path → Event
  | uploadArtifactsCall : Path → Event
  | uploadArchiveCall : String → Event
  deriving DecidableEq

/-- A produced archive: where the `.tar.gz` file was written, and the member
paths stored inside it (as `shutil.make_archive` names them, relative to its
`root_dir`). -/
structure Archive where
  location : Path
  members : List Path
  deriving DecidableEq

/-- The whole mutable state: process state (cwd, environment, filesystem),
the event trace, and the `Workspace` object's fields. -/
structure S where
  cwd : Path
  env : List (String × String)
  dirs : List Path
  files : List (Path × String)
  tmpCount : Nat
  trace : List Event
  top_dir : Path
  global_logs : Path
  global_artifacts : Path
  workspace : Option Path
  identifiers : List (String × Path)
  compressed_workspace : Option Path
  archives : List Archive
  deriving DecidableEq

/-- Environment lookup (first binding wins). -/
def envGet (e : List (String × String)) (k : String) : Option String :=
  match e with
  | [] => none
  | (k2, v) :: rest => if k2 = k then some v else envGet rest k

/-- Remove every binding of `k` (Python `del environ[k]` removes the key). -/
def envDel (e : List (String × String)) (k : String) : List (String × String) :=
  match e with
  | [] => []
  | (k2, v) :: rest => if k2 = k then envDel rest k else (k2, v) :: envDel rest k

/-- `environ[k] = v`: bind `k` to `v`, replacing any previous binding. -/
def envSet (e : List (String × String)) (k v : String) : List (String × String) :=
  (k, v) :: envDel e k

/-- File lookup (first entry wins). -/
def fsGet (l : List (Path × String)) (p : Path) : Option String :=
  match l with
  | [] => none
  | (q, c) :: rest => if q = p then some c else fsGet rest p

/-- Identifier lookup in the `identifiers` mapping. -/
def lookupId (l : List (String × Path)) (k : String) : Option Path :=
  match l with
  | [] => none
  | (k2, d) :: rest => if k2 = k then some d else lookupId rest k

/-- `base` is a prefix of `p` (so `p.relative_to(base)` would succeed). -/
def pathLe (base p : Path) : Bool :=
  match base, p with
  | [], _ => true
  | _ :: _, [] => false
  | a :: as, b :: bs => a = b && pathLe as bs

/-- `pathlib.Path.relative_to`: the suffix of `p` after `base`, or
`ValueError` when `base` is not a prefix of `p`. -/
def relative_to (p base : Path) : Except Err Path :=
  if pathLe base p then Except.ok (p.drop base.length) else Except.error Err.valueError

/-- `Path.is_dir()` of the model. -/
def isDir (s : S) (p : Path) : Bool := decide (p ∈ s.dirs)

/-- `Path.mkdir(exist_ok=True)`: no-op when the directory exists, raises
`FileNotFoundError` when the parent is missing. -/
def mkdir (s : S) (p : Path) : S × Except Err Unit :=
  if p ∈ s.dirs then (s, Except.ok ())
  else if p.dropLast ∈ s.dirs then ({ s with dirs := p :: s.dirs }, Except.ok ())
  else (s, Except.error Err.fileNotFound)

/-- `os.chdir`. -/
def chdir (s : S) (p : Path) : S := { s with cwd := p }

/-- The unique name `tempfile.mkdtemp` picks next. -/
def freshName (s : S) : String := "tmp" ++ toString s.tmpCount

/-- `tempfile.mkdtemp(dir=dir)`: create a uniquely named directory in `dir`. -/
def mkdtemp (s : S) (dir : Path) : S × Path :=
  ({ s with dirs := (dir ++ [freshName s]) :: s.dirs, tmpCount := s.tmpCount + 1 },
    dir ++ [freshName s])

/-- `Path.touch()`: create an empty file if absent. -/
def touch (s : S) (p : Path) : S :=
  match fsGet s.files p with
  | some _ => s
  | none => { s with files := (p, "") :: s.files }

/-- Appending text to a file (`open(mode="a").write`). -/
def appendFile (s : S) (p : Path) (c : String) : S :=
  { s with files := s.files.map (fun q => if q.1 = p then (q.1, q.2 ++ c) else q) }

/-- The `LogArea` collaborator's failure behaviour: whether uploading the
files collected below a given path fails, and whether uploading the archive
descriptor fails.  Retry/failure semantics are the collaborator's own. -/
structure LogArea where
  logsFail : Path → Bool
  artifactsFail : Path → Bool
  archiveFail : Bool

/-- `log_area.upload_logs(log_area.collect(p))`: records the attempt and
fails according to the collaborator. -/
def upload_logs (la : LogArea) (p : Path) (s : S) : S × Except Err Unit :=
  let s2 : S := { s with trace := s.trace ++ [Event.uploadLogsCall p] }
  if la.logsFail p then (s2, Except.error Err.uploadError) else (s2, Except.ok ())

/-- `log_area.upload_artifacts(log_area.collect(p))`. -/
def upload_artifacts (la : LogArea) (p : Path) (s : S) : S × Except Err Unit :=
  let s2 : S := { s with trace := s.trace ++ [Event.uploadArtifactsCall p] }
  if la.artifactsFail p then (s2, Except.error Err.uploadError) else (s2, Except.ok ())

/-- The `__exit__` call `upload_artifacts([{name, file}])` for the archive. -/
def upload_archive (la : LogArea) (name : String) (s : S) : S × Except Err Unit :=
  let s2 : S := { s with trace := s.trace ++ [Event.uploadArchiveCall name] }
  if la.archiveFail then (s2, Except.error Err.uploadError) else (s2, Except.ok ())

/-- `Workspace.__init__`: capture `top_dir` from the current working
directory, compute the global log/artifact paths and publish them in the
environment. -/
def winit (s : S) : S :=
  let top := s.cwd
  let gl := top ++ ["logs"]
  let ga := top ++ ["artifacts"]
  let s1 : S := { s with
    top_dir := top
    identifiers := []
    workspace := none
    compressed_workspace := none
    global_logs := gl
    global_artifacts := ga }
  let s2 : S := { s1 with env := envSet s1.env "GLOBAL_LOGS" (pathStr gl) }
  { s2 with env := envSet s2.env "GLOBAL_ARTIFACTS" (pathStr ga) }

/-- `Workspace.__enter__`: choose the workspace directory, log it (which
evaluates `workspace.relative_to(top_dir)` and can raise `ValueError`),
create the three directories and change into the workspace. -/
def wenter (path : Option Path) (s : S) : S × Except Err Unit :=
  let ws := match path with
    | some p => p
    | none => s.top_dir ++ ["workspace"]
  let s1 : S := { s with workspace := some ws }
  if pathLe s1.top_dir ws then
    match mkdir s1 ws with
    | (s2, Except.error e) => (s2, Except.error e)
    | (s2, Except.ok _) =>
      match mkdir s2 s2.global_logs with
      | (s3, Except.error e) => (s3, Except.error e)
      | (s3, Except.ok _) =>
        match mkdir s3 s3.global_artifacts with
        | (s4, Except.error e) => (s4, Except.error e)
        | (s4, Except.ok _) => (chdir s4 ws, Except.ok ())
  else (s1, Except.error Err.valueError)

/-- All paths of the tree (directories and files). -/
def treePaths (s : S) : List Path := s.dirs ++ s.files.map Prod.fst

/-- `shutil.make_archive(base_name, "gztar", root_dir, base_dir)`, with
`base_name`, `root_dir` and `base_dir` relative to the current working
directory as the caller computed them: the archive file is written at
`cwd/base_name + ".tar.gz"` and holds the tree below `root_dir/base_dir`,
members named relative to `root_dir`.  Fails when the directory to archive
does not exist. -/
def make_archive (s : S) (base_name root_dir base_dir : Path) : S × Except Err Path :=
  let root_abs := s.cwd ++ root_dir
  let base_abs := root_abs ++ base_dir
  if isDir s base_abs then
    let filename := base_name.dropLast ++ [base_name.getLastD "" ++ ".tar.gz"]
    let members := ((treePaths s).filter (fun p => pathLe base_abs p)).map
      (fun p => base_dir ++ p.drop base_abs.length)
    ({ s with archives := s.archives ++ [⟨s.cwd ++ filename, members⟩] }, Except.ok filename)
  else (s, Except.error Err.fileNotFound)

/-- `Workspace.compress`: precondition check, then the three `relative_to`
computations against `Path.cwd()` in evaluation order, then the archive
creation, then recording of the result path. -/
def compress (s : S) : S × Except Err Unit :=
  match s.workspace with
  | none => (s, Except.error Err.fileNotFound)
  | some ws =>
    if isDir s ws then
      match relative_to (s.top_dir ++ ["workspace"]) s.cwd with
      | Except.error e => (s, Except.error e)
      | Except.ok base_name =>
        match relative_to s.top_dir s.cwd with
        | Except.error e => (s, Except.error e)
        | Except.ok root_dir =>
          match relative_to ws s.cwd with
          | Except.error e => (s, Except.error e)
          | Except.ok base_dir =>
            match make_archive s base_name root_dir base_dir with
            | (s1, Except.error e) => (s1, Except.error e)
            | (s1, Except.ok filename) =>
              ({ s1 with compressed_workspace := some filename }, Except.ok ())
    else (s, Except.error Err.fileNotFound)

/-- `Workspace.add_to_full_log`: when the report file exists, touch the
cumulative `full_execution.log` under `global_logs` and append the report's
text to it; otherwise do nothing. -/
def add_to_full_log (s : S) (report : Path) : S :=
  match fsGet s.files report with
  | none => s
  | some content =>
    let full_execution := s.global_logs ++ ["full_execution.log"]
    appendFile (touch s full_execution) full_execution content

/-- `Workspace.__exit__`: return to `top_dir`, compress, then the three
upload calls, in order, each value propagating an exception immediately. -/
def wexit (la : LogArea) (s : S) : S × Except Err Unit :=
  let s1 := chdir s s.top_dir
  match compress s1 with
  | (s2, Except.error e) => (s2, Except.error e)
  | (s2, Except.ok _) =>
    match upload_logs la s2.global_logs s2 with
    | (s3, Except.error e) => (s3, Except.error e)
    | (s3, Except.ok _) =>
      match upload_artifacts la s3.global_artifacts s3 with
      | (s4, Except.error e) => (s4, Except.error e)
      | (s4, Except.ok _) =>
        upload_archive la ((s4.compressed_workspace.getD []).getLastD "") s4

/-- `Workspace.collect_logs` (a `@contextmanager`): create the per-test
`logs/` and `artifacts/` directories, export the three environment
variables, run the body, and only on a normal return delete the variables,
fold `test_output.log` into the full log and upload logs and artifacts.
An exception from the body propagates with no cleanup (the generator has no
`try/finally`). -/
def collect_logs (la : LogArea) (base_path : Path) (body : S → S × Except Err Unit)
    (s : S) : S × Except Err Unit :=
  let log_path := base_path ++ ["logs"]
  let artifact_path := base_path ++ ["artifacts"]
  match mkdir s log_path with
  | (s1, Except.error e) => (s1, Except.error e)
  | (s1, Except.ok _) =>
    match mkdir s1 artifact_path with
    | (s2, Except.error e) => (s2, Except.error e)
    | (s2, Except.ok _) =>
      let s3 : S := { s2 with env := envSet s2.env "TEST_ARTIFACT_PATH" (pathStr artifact_path) }
      let s4 : S := { s3 with env := envSet s3.env "ARTIFACT_PATH" (pathStr artifact_path) }
      let s5 : S := { s4 with env := envSet s4.env "LOG_PATH" (pathStr log_path) }
      match body s5 with
      | (s6, Except.error e) => (s6, Except.error e)
      | (s6, Except.ok _) =>
        let s7 : S := { s6 with env := envDel s6.env "TEST_ARTIFACT_PATH" }
        let s8 : S := { s7 with env := envDel s7.env "ARTIFACT_PATH" }
        let s9 : S := { s8 with env := envDel s8.env "LOG_PATH" }
        let s10 := add_to_full_log s9 (log_path ++ ["test_output.log"])
        match upload_logs la log_path s10 with
        | (s11, Except.error e) => (s11, Except.error e)
        | (s11, Except.ok _) => upload_artifacts la artifact_path s11

/-- The `with self.collect_logs(self.identifiers.get(identifier)): yield
self.identifiers.get(identifier)` block of `test_directory`: both lookups
happen at their own moment, and the yielded directory is recorded in the
trace before the body runs. -/
def scopedYield (la : LogArea) (identifier : String)
    (body : Path → S → S × Except Err Unit) (s : S) : S × Except Err Unit :=
  collect_logs la ((lookupId s.identifiers identifier).getD [])
    (fun s2 =>
      let d2 := (lookupId s2.identifiers identifier).getD []
      body d2 { s2 with trace := s2.trace ++ [Event.yieldDir d2] }) s

/-- `Workspace.test_directory` (a `@contextmanager`): precondition check,
then inside `try`: either create a fresh directory (logging it, which
evaluates `directory.relative_to(top_dir)`), record the binding, change into
it and invoke `on_create` once — or re-use the bound directory — then run
the `collect_logs` scope; the `finally` logs
`workspace.relative_to(top_dir)` and changes back to the workspace. -/
def test_directory (la : LogArea) (identifier : String)
    (on_create : Option (S → S × Except Err Unit))
    (body : Path → S → S × Except Err Unit) (s : S) : S × Except Err Unit :=
  match s.workspace with
  | none => (s, Except.error Err.fileNotFound)
  | some ws =>
    if isDir s ws then
      let inner : S × Except Err Unit :=
        match lookupId s.identifiers identifier with
        | none =>
          match mkdtemp s ws with
          | (s1, d) =>
            if pathLe s1.top_dir d then
              let s2 : S := { s1 with identifiers := (identifier, d) :: s1.identifiers }
              let s3 := chdir s2 d
              match on_create with
              | none => scopedYield la identifier body s3
              | some f =>
                match f { s3 with trace := s3.trace ++ [Event.onCreateCall identifier] } with
                | (s4, Except.error e) => (s4, Except.error e)
                | (s4, Except.ok _) => scopedYield la identifier body s4
            else (s1, Except.error Err.valueError)
        | some d =>
          if pathLe s.top_dir d then
            scopedYield la identifier body (chdir s d)
          else (s, Except.error Err.valueError)
      match inner with
      | (s5, r) =>
        if pathLe s5.top_dir ws then (chdir s5 ws, r)
        else (s5, Except.error Err.valueError)
    else (s, Except.error Err.fileNotFound)

/-- A small language of scope bodies and `on_create` callbacks: enough to
write files, change directory, observe the environment, succeed or raise.
It interacts with the workspace only the way a test process can. -/
inductive Body where
  | skip : Body
  | fail : Nat → Body
  | write : String → String → Body
  | cd : Path → Body
  | checkEnv : String → Body
  | seq : Body → Body → Body
  deriving DecidableEq

/-- Interpreter for `Body`. -/
def runBody : Body → S → S × Except Err Unit
  | Body.skip, s => (s, Except.ok ())
  | Body.fail n, s => (s, Except.error (Err.userError n))
  | Body.write name c, s =>
      ({ s with files := (s.cwd ++ [name], c) :: s.files }, Except.ok ())
  | Body.cd p, s => ({ s with cwd := p }, Except.ok ())
  | Body.checkEnv k, s =>
      match envGet s.env k with
      | some _ => (s, Except.ok ())
      | none => (s, Except.error Err.keyError)
  | Body.seq a b, s =>
      match runBody a s with
      | (s1, Except.error e) => (s1, Except.error e)
      | (s1, Except.ok _) => runBody b s1

end ETR

namespace ETR

theorem pathLe_iff (a : Path) : ∀ b : Path, pathLe a b = true ↔ ∃ t, b = a ++ t := by
  induction a with
  | nil =>
    intro b
    simp [pathLe]
  | cons x xs ih =>
    intro b
    cases b with
    | nil =>
      simp [pathLe]
    | cons y ys =>
      simp only [pathLe, Bool.and_eq_true, decide_eq_true_eq, ih ys]
      constructor
      · rintro ⟨rfl, t, rfl⟩
        exact ⟨t, rfl⟩
      · rintro ⟨t, h⟩
        cases h
        exact ⟨rfl, t, rfl⟩

theorem pathLe_self_append (a t : Path) : pathLe a (a ++ t) = true :=
  (pathLe_iff a (a ++ t)).2 ⟨t, rfl⟩

theorem pathLe_refl (a : Path) : pathLe a a = true :=
  (pathLe_iff a a).2 ⟨[], by simp⟩

theorem drop_append_self (a : Path) : ∀ b : Path, (a ++ b).drop a.length = b := by
  induction a with
  | nil => intro b; simp
  | cons x xs ih => intro b; simp [ih b]

theorem drop_of_pathLe {a b : Path} (h : pathLe a b = true) :
    a ++ b.drop a.length = b := by
  obtain ⟨t, rfl⟩ := (pathLe_iff a b).1 h
  rw [drop_append_self]

theorem pathLe_snoc {a b : Path} (h : pathLe a b = true) (x : String) :
    pathLe a (b ++ [x]) = true := by
  obtain ⟨t, rfl⟩ := (pathLe_iff a b).1 h
  rw [List.append_assoc]
  exact pathLe_self_append a (t ++ [x])

theorem dropLast_snoc (l : Path) (x : String) : (l ++ [x]).dropLast = l := by
  simp

theorem envGet_envDel_self (e : List (String × String)) (k : String) :
    envGet (envDel e k) k = none := by
  induction e with
  | nil => rfl
  | cons q rest ih =>
    obtain ⟨k2, v⟩ := q
    by_cases h : k2 = k
    · simp [envDel, h, ih]
    · simp [envDel, envGet, h, ih]

theorem envGet_envDel_ne (e : List (String × String)) {k k2 : String} (h : k2 ≠ k) :
    envGet (envDel e k) k2 = envGet e k2 := by
  induction e with
  | nil => rfl
  | cons q rest ih =>
    obtain ⟨k3, v⟩ := q
    by_cases h3 : k3 = k
    · subst h3
      have h32 : ¬k3 = k2 := fun hh => h hh.symm
      simp [envDel, envGet, h32, ih]
    · by_cases h32 : k3 = k2
      · subst h32
        simp [envDel, envGet, h3]
      · simp [envDel, envGet, h3, h32, ih]

theorem envGet_envSet_self (e : List (String × String)) (k v : String) :
    envGet (envSet e k v) k = some v := by
  simp [envSet, envGet]

theorem envGet_envSet_ne (e : List (String × String)) {k k2 : String} (v : String)
    (h : k2 ≠ k) : envGet (envSet e k v) k2 = envGet e k2 := by
  have h2 : ¬k = k2 := fun hh => h hh.symm
  simp only [envSet, envGet, envGet_envDel_ne e h, if_neg h2]

theorem fsGet_map_update (p : Path) (c : String) :
    ∀ l : List (Path × String),
      fsGet (l.map (fun q => if q.1 = p then (q.1, q.2 ++ c) else q)) p
        = (fsGet l p).map (fun v => v ++ c) := by
  intro l
  induction l with
  | nil => rfl
  | cons q rest ih =>
    obtain ⟨q1, q2⟩ := q
    by_cases h : q1 = p
    · rw [List.map_cons, if_pos (show (q1, q2).1 = p from h)]
      simp [fsGet, h, ih]
    · rw [List.map_cons, if_neg (show ¬(q1, q2).1 = p from h)]
      simp [fsGet, h, ih]

end ETR

namespace ETR

theorem runBody_shape (b : Body) : ∀ s : S, ∃ fl cw r,
    runBody b s = ({ s with files := fl, cwd := cw }, r) := by
  induction b with
  | skip => intro s; exact ⟨s.files, s.cwd, Except.ok (), rfl⟩
  | fail n => intro s; exact ⟨s.files, s.cwd, Except.error (Err.userError n), rfl⟩
  | write name c => intro s; exact ⟨(s.cwd ++ [name], c) :: s.files, s.cwd, Except.ok (), rfl⟩
  | cd p => intro s; exact ⟨s.files, p, Except.ok (), rfl⟩
  | checkEnv k =>
    intro s
    cases h : envGet s.env k with
    | some v => exact ⟨s.files, s.cwd, Except.ok (), by simp [runBody, h]⟩
    | none => exact ⟨s.files, s.cwd, Except.error Err.keyError, by simp [runBody, h]⟩
  | seq a b2 iha ihb =>
    intro s
    obtain ⟨fl1, cw1, r1, h1⟩ := iha s
    cases r1 with
    | error e => exact ⟨fl1, cw1, Except.error e, by simp [runBody, h1]⟩
    | ok u =>
      cases u
      obtain ⟨fl2, cw2, r2, h2⟩ := ihb ({ s with files := fl1, cwd := cw1 })
      exact ⟨fl2, cw2, r2, by simp [runBody, h1, h2]⟩

theorem runBody_classify (b : Body) : ∀ s : S,
    (runBody b s).2 = Except.ok ()
      ∨ (∃ n, (runBody b s).2 = Except.error (Err.userError n))
      ∨ (runBody b s).2 = Except.error Err.keyError := by
  induction b with
  | skip => intro s; left; rfl
  | fail n => intro s; right; left; exact ⟨n, rfl⟩
  | write name c => intro s; left; rfl
  | cd p => intro s; left; rfl
  | checkEnv k =>
    intro s
    cases h : envGet s.env k with
    | some v => left; simp [runBody, h]
    | none => right; right; simp [runBody, h]
  | seq a b2 iha ihb =>
    intro s
    cases ha : runBody a s with
    | mk s1 r1 =>
      cases r1 with
      | error e =>
        have h := iha s
        rw [ha] at h
        simpa [runBody, ha] using h
      | ok u =>
        cases u
        have h := ihb s1
        simpa [runBody, ha] using h

theorem mkdir_shape (s : S) (p : Path) : ∃ D r,
    mkdir s p = ({ s with dirs := D }, r) ∧ (∀ q, q ∈ s.dirs → q ∈ D)
      ∧ (r = Except.ok () → p ∈ D) := by
  unfold mkdir
  by_cases h1 : p ∈ s.dirs
  · exact ⟨s.dirs, Except.ok (), by simp [h1], fun q hq => hq, fun _ => h1⟩
  · by_cases h2 : p.dropLast ∈ s.dirs
    · exact ⟨p :: s.dirs, Except.ok (), by simp [h1, h2], fun q hq => List.mem_cons_of_mem _ hq,
        fun _ => List.mem_cons_self _ _⟩
    · exact ⟨s.dirs, Except.error Err.fileNotFound, by simp [h1, h2], fun q hq => hq, by simp⟩

theorem mkdir_ok (s : S) (p : Path) (h : p.dropLast ∈ s.dirs) : ∃ D,
    mkdir s p = ({ s with dirs := D }, Except.ok ()) ∧ (∀ q, q ∈ s.dirs → q ∈ D) ∧ p ∈ D := by
  unfold mkdir
  by_cases h1 : p ∈ s.dirs
  · exact ⟨s.dirs, by simp [h1], fun q hq => hq, h1⟩
  · exact ⟨p :: s.dirs, by simp [h1, h], fun q hq => List.mem_cons_of_mem _ hq,
      List.mem_cons_self _ _⟩

theorem add_to_full_log_shape (s : S) (report : Path) :
    ∃ fl, add_to_full_log s report = { s with files := fl } := by
  unfold add_to_full_log
  cases h : fsGet s.files report with
  | none => exact ⟨s.files, by simp⟩
  | some content =>
    cases h2 : fsGet s.files (s.global_logs ++ ["full_execution.log"]) with
    | none =>
      refine ⟨(s.global_logs ++ ["full_execution.log"], content) ::
        s.files.map (fun q =>
          if q.1 = s.global_logs ++ ["full_execution.log"] then (q.1, q.2 ++ content) else q), ?_⟩
      simp [touch, appendFile, h2]
    | some v =>
      refine ⟨s.files.map (fun q =>
        if q.1 = s.global_logs ++ ["full_execution.log"] then (q.1, q.2 ++ content) else q), ?_⟩
      simp [touch, appendFile, h2]

/-- Events a `collect_logs` scope for directory `d` may add to the trace. -/
def scopeEvent (d : Path) : Event → Bool
  | Event.yieldDir p => decide (p = d)
  | Event.uploadLogsCall _ => true
  | Event.uploadArtifactsCall _ => true
  | Event.onCreateCall _ => false
  | Event.uploadArchiveCall _ => false

/-- Recognise the `on_create` invocation event for a given identifier. -/
def isOnCreateFor (identifier : String) : Event → Bool
  | Event.onCreateCall i => decide (i = identifier)
  | _ => false

/-- How many times `on_create` was invoked for `identifier` in a trace. -/
def onCreateCount (identifier : String) (t : List Event) : Nat :=
  (t.filter (isOnCreateFor identifier)).length

/-- The directories yielded by `test_directory` scopes, in trace order. -/
def yieldsOf (t : List Event) : List Path :=
  t.filterMap (fun e => match e with | Event.yieldDir p => some p | _ => none)

theorem onCreateCount_append (identifier : String) (t1 t2 : List Event) :
    onCreateCount identifier (t1 ++ t2)
      = onCreateCount identifier t1 + onCreateCount identifier t2 := by
  simp [onCreateCount]

theorem yieldsOf_append (t1 t2 : List Event) :
    yieldsOf (t1 ++ t2) = yieldsOf t1 ++ yieldsOf t2 := by
  simp [yieldsOf]

theorem scopeEvent_onCreateCount (d : Path) (identifier : String) :
    ∀ evs : List Event, evs.all (scopeEvent d) = true → onCreateCount identifier evs = 0 := by
  intro evs
  induction evs with
  | nil => intro _; rfl
  | cons e rest ih =>
    intro h
    rw [List.all_cons, Bool.and_eq_true] at h
    have he : isOnCreateFor identifier e = false := by
      cases e <;> simp_all [scopeEvent, isOnCreateFor]
    have hstep : onCreateCount identifier (e :: rest) = onCreateCount identifier rest := by
      simp [onCreateCount, List.filter_cons, he]
    rw [hstep]
    exact ih h.2

theorem scopeEvent_yields (d : Path) (evs : List Event) (h : evs.all (scopeEvent d) = true) :
    ∀ p, p ∈ yieldsOf evs → p = d := by
  intro p hp
  rw [yieldsOf, List.mem_filterMap] at hp
  obtain ⟨e, he, hfe⟩ := hp
  have hse := List.all_eq_true.1 h e he
  cases e with
  | yieldDir q =>
    have hq : q = p := Option.some.inj hfe
    have hd : q = d := by simpa [scopeEvent] using hse
    rw [← hq]
    exact hd
  | onCreateCall i => exact Option.noConfusion hfe
  | uploadLogsCall q => exact Option.noConfusion hfe
  | uploadArtifactsCall q => exact Option.noConfusion hfe
  | uploadArchiveCall n => exact Option.noConfusion hfe

end ETR
namespace ETR

theorem scopedYield_shape (la : LogArea) (identifier : String) (b : Body) (s : S) (d : Path)
    (hl : lookupId s.identifiers identifier = some d) :
    ∃ E D F C evs r,
      scopedYield la identifier (fun _ => runBody b) s
        = ({ s with env := E, dirs := D, files := F, cwd := C, trace := s.trace ++ evs }, r)
      ∧ evs.all (scopeEvent d) = true
      ∧ (∀ q, q ∈ s.dirs → q ∈ D) := by
  obtain ⟨D1, r1, h1, hm1, _⟩ := mkdir_shape s (d ++ ["logs"])
  cases r1 with
  | error e =>
    refine ⟨s.env, D1, s.files, s.cwd, [], Except.error e, ?_, rfl, hm1⟩
    simp only [scopedYield, collect_logs, hl, Option.getD_some, h1]
    simp
  | ok u =>
    cases u
    obtain ⟨D2, r2, h2, hm2, _⟩ := mkdir_shape ({ s with dirs := D1 } : S) (d ++ ["artifacts"])
    dsimp only at h2 hm2
    cases r2 with
    | error e =>
      refine ⟨s.env, D2, s.files, s.cwd, [], Except.error e, ?_, rfl, fun q hq => hm2 q (hm1 q hq)⟩
      simp only [scopedYield, collect_logs, hl, Option.getD_some, h1, h2]
      simp
    | ok u2 =>
      cases u2
      simp only [scopedYield, collect_logs, hl, Option.getD_some, h1, h2]
      obtain ⟨FL, CW, rB, hB⟩ := runBody_shape b ({ s with
        env := envSet (envSet (envSet s.env "TEST_ARTIFACT_PATH" (pathStr (d ++ ["artifacts"])))
          "ARTIFACT_PATH" (pathStr (d ++ ["artifacts"]))) "LOG_PATH" (pathStr (d ++ ["logs"])),
        dirs := D2, trace := s.trace ++ [Event.yieldDir d] } : S)
      dsimp only at hB
      rw [hB]
      cases rB with
      | error e =>
        refine ⟨envSet (envSet (envSet s.env "TEST_ARTIFACT_PATH" (pathStr (d ++ ["artifacts"])))
            "ARTIFACT_PATH" (pathStr (d ++ ["artifacts"]))) "LOG_PATH" (pathStr (d ++ ["logs"])),
          D2, FL, CW, [Event.yieldDir d], Except.error e, ?_, ?_, fun q hq => hm2 q (hm1 q hq)⟩
        · simp
        · simp [scopeEvent]
      | ok uB =>
        cases uB
        dsimp only
        obtain ⟨FL2, hA⟩ := add_to_full_log_shape ({ s with
          env := envDel (envDel (envDel
            (envSet (envSet (envSet s.env "TEST_ARTIFACT_PATH" (pathStr (d ++ ["artifacts"])))
              "ARTIFACT_PATH" (pathStr (d ++ ["artifacts"]))) "LOG_PATH" (pathStr (d ++ ["logs"])))
            "TEST_ARTIFACT_PATH") "ARTIFACT_PATH") "LOG_PATH",
          dirs := D2, files := FL, cwd := CW,
          trace := s.trace ++ [Event.yieldDir d] } : S) (d ++ ["logs"] ++ ["test_output.log"])
        dsimp only at hA
        rw [hA]
        simp only [upload_logs, upload_artifacts]
        by_cases hf1 : la.logsFail (d ++ ["logs"])
        · refine ⟨envDel (envDel (envDel
              (envSet (envSet (envSet s.env "TEST_ARTIFACT_PATH" (pathStr (d ++ ["artifacts"])))
                "ARTIFACT_PATH" (pathStr (d ++ ["artifacts"]))) "LOG_PATH" (pathStr (d ++ ["logs"])))
              "TEST_ARTIFACT_PATH") "ARTIFACT_PATH") "LOG_PATH",
            D2, FL2, CW, [Event.yieldDir d, Event.uploadLogsCall (d ++ ["logs"])],
            Except.error Err.uploadError, ?_, ?_, fun q hq => hm2 q (hm1 q hq)⟩
          · simp [hf1]
          · simp [scopeEvent]
        · by_cases hf2 : la.artifactsFail (d ++ ["artifacts"])
          · refine ⟨envDel (envDel (envDel
                (envSet (envSet (envSet s.env "TEST_ARTIFACT_PATH" (pathStr (d ++ ["artifacts"])))
                  "ARTIFACT_PATH" (pathStr (d ++ ["artifacts"]))) "LOG_PATH" (pathStr (d ++ ["logs"])))
                "TEST_ARTIFACT_PATH") "ARTIFACT_PATH") "LOG_PATH",
              D2, FL2, CW,
              [Event.yieldDir d, Event.uploadLogsCall (d ++ ["logs"]),
                Event.uploadArtifactsCall (d ++ ["artifacts"])],
              Except.error Err.uploadError, ?_, ?_, fun q hq => hm2 q (hm1 q hq)⟩
            · simp [hf1, hf2]
            · simp [scopeEvent]
          · refine ⟨envDel (envDel (envDel
                (envSet (envSet (envSet s.env "TEST_ARTIFACT_PATH" (pathStr (d ++ ["artifacts"])))
                  "ARTIFACT_PATH" (pathStr (d ++ ["artifacts"]))) "LOG_PATH" (pathStr (d ++ ["logs"])))
                "TEST_ARTIFACT_PATH") "ARTIFACT_PATH") "LOG_PATH",
              D2, FL2, CW,
              [Event.yieldDir d, Event.uploadLogsCall (d ++ ["logs"]),
                Event.uploadArtifactsCall (d ++ ["artifacts"])],
              Except.ok (), ?_, ?_, fun q hq => hm2 q (hm1 q hq)⟩
            · simp [hf1, hf2]
            · simp [scopeEvent]

end ETR
namespace ETR

theorem all_or_left {α : Type} {p q : α → Bool} {l : List α} (h : l.all p = true) :
    l.all (fun a => p a || q a) = true := by
  rw [List.all_eq_true] at h ⊢
  intro a ha
  rw [h a ha]
  rfl

theorem onCreateCount_cons_self (identifier : String) (evs : List Event) :
    onCreateCount identifier (Event.onCreateCall identifier :: evs)
      = onCreateCount identifier evs + 1 := by
  simp [onCreateCount, List.filter_cons, isOnCreateFor]

theorem test_directory_run (la : LogArea) (identifier : String) (oc : Option Body) (b : Body)
    (s : S) (w : Path)
    (hw : s.workspace = some w) (hd : w ∈ s.dirs) (hp : pathLe s.top_dir w = true)
    (hids : ∀ d2, lookupId s.identifiers identifier = some d2 →
      d2 ∈ s.dirs ∧ pathLe s.top_dir d2 = true) :
    ∃ d s2 r, test_directory la identifier (Option.map runBody oc) (fun _ => runBody b) s = (s2, r)
      ∧ s2.cwd = w ∧ s2.workspace = some w ∧ s2.top_dir = s.top_dir
      ∧ s2.global_logs = s.global_logs
      ∧ lookupId s2.identifiers identifier = some d
      ∧ d ∈ s2.dirs ∧ pathLe s.top_dir d = true
      ∧ (∀ q, q ∈ s.dirs → q ∈ s2.dirs)
      ∧ (∀ d2, lookupId s.identifiers identifier = some d2 → d = d2 ∧ s2.identifiers = s.identifiers)
      ∧ (lookupId s.identifiers identifier = none → s2.identifiers = (identifier, d) :: s.identifiers)
      ∧ (∀ n2, oc = some (Body.fail n2) → lookupId s.identifiers identifier = none →
          r = Except.error (Err.userError n2))
      ∧ ∃ evs, s2.trace = s.trace ++ evs
          ∧ evs.all (fun e => scopeEvent d e || isOnCreateFor identifier e) = true
          ∧ onCreateCount identifier evs
              = (if (lookupId s.identifiers identifier).isNone && oc.isSome then 1 else 0) := by
  have hdir : isDir s w = true := by simp [isDir, hd]
  cases hli : lookupId s.identifiers identifier with
  | none =>
    have hpd : pathLe s.top_dir (w ++ [freshName s]) = true := pathLe_snoc hp (freshName s)
    cases oc with
    | none =>
      obtain ⟨E, D, F, C, evs, r, hsy, hall, hmono⟩ := scopedYield_shape la identifier b
        ({ s with
            dirs := (w ++ [freshName s]) :: s.dirs
            tmpCount := s.tmpCount + 1
            identifiers := (identifier, w ++ [freshName s]) :: s.identifiers
            cwd := w ++ [freshName s]
            workspace := some w } : S) (w ++ [freshName s]) (by simp [lookupId])
      dsimp only at hsy hmono
      refine ⟨w ++ [freshName s],
        ({ s with
            env := E
            dirs := D
            files := F
            tmpCount := s.tmpCount + 1
            trace := s.trace ++ evs
            identifiers := (identifier, w ++ [freshName s]) :: s.identifiers
            cwd := w } : S), r, ?_, rfl, hw, rfl, rfl, by simp [lookupId],
        hmono _ (List.mem_cons_self _ _), hpd,
        fun q hq => hmono q (List.mem_cons_of_mem _ hq),
        fun d2 hd2 => Option.noConfusion hd2,
        fun _ => rfl,
        fun n2 hoc => Option.noConfusion hoc,
        ⟨evs, rfl, all_or_left hall, by rw [scopeEvent_onCreateCount _ _ evs hall]; simp⟩⟩
      simp only [test_directory, hw, hdir, if_true, hli, mkdtemp, Option.map, chdir, hpd, hsy, hp]
    | some c =>
      obtain ⟨FL, CW, rC, hC⟩ := runBody_shape c
        ({ s with
            dirs := (w ++ [freshName s]) :: s.dirs
            tmpCount := s.tmpCount + 1
            identifiers := (identifier, w ++ [freshName s]) :: s.identifiers
            cwd := w ++ [freshName s]
            trace := s.trace ++ [Event.onCreateCall identifier]
            workspace := some w } : S)
      dsimp only at hC
      cases rC with
      | error e =>
        refine ⟨w ++ [freshName s],
          ({ s with
              dirs := (w ++ [freshName s]) :: s.dirs
              tmpCount := s.tmpCount + 1
              identifiers := (identifier, w ++ [freshName s]) :: s.identifiers
              trace := s.trace ++ [Event.onCreateCall identifier]
              files := FL
              cwd := w } : S), Except.error e, ?_, rfl, hw, rfl, rfl, by simp [lookupId],
          List.mem_cons_self _ _, hpd,
          fun q hq => List.mem_cons_of_mem _ hq,
          fun d2 hd2 => Option.noConfusion hd2,
          fun _ => rfl,
          ?_,
          ⟨[Event.onCreateCall identifier], rfl, by simp [isOnCreateFor, scopeEvent], by
            rw [onCreateCount_cons_self]; simp [onCreateCount]⟩⟩
        · simp only [test_directory, hw, hdir, if_true, hli, mkdtemp, Option.map, chdir, hpd, hC,
            hp]
        · intro n2 hoc _
          have hc2 : c = Body.fail n2 := Option.some.inj hoc
          subst hc2
          simp only [runBody] at hC
          have h2 := congrArg Prod.snd hC
          simp only at h2
          rw [← h2]
      | ok uC =>
        cases uC
        obtain ⟨E, D, F, C, evs, r, hsy, hall, hmono⟩ := scopedYield_shape la identifier b
          ({ s with
              dirs := (w ++ [freshName s]) :: s.dirs
              tmpCount := s.tmpCount + 1
              identifiers := (identifier, w ++ [freshName s]) :: s.identifiers
              trace := s.trace ++ [Event.onCreateCall identifier]
              files := FL
              cwd := CW
              workspace := some w } : S) (w ++ [freshName s]) (by simp [lookupId])
        dsimp only at hsy hmono
        refine ⟨w ++ [freshName s],
          ({ s with
              env := E
              dirs := D
              files := F
              tmpCount := s.tmpCount + 1
              trace := s.trace ++ (Event.onCreateCall identifier :: evs)
              identifiers := (identifier, w ++ [freshName s]) :: s.identifiers
              cwd := w } : S), r, ?_, rfl, hw, rfl, rfl, by simp [lookupId],
          hmono _ (List.mem_cons_self _ _), hpd,
          fun q hq => hmono q (List.mem_cons_of_mem _ hq),
          fun d2 hd2 => Option.noConfusion hd2,
          fun _ => rfl,
          fun n2 hoc _ => by
            have hc2 : c = Body.fail n2 := Option.some.inj hoc
            subst hc2
            simp only [runBody] at hC
            have h2 := congrArg Prod.snd hC
            simp only at h2
            exact absurd h2.symm (by simp),
          ⟨Event.onCreateCall identifier :: evs, rfl, by
            rw [List.all_cons, Bool.and_eq_true]
            exact ⟨by simp [isOnCreateFor, scopeEvent], all_or_left hall⟩, by
            rw [onCreateCount_cons_self, scopeEvent_onCreateCount _ _ evs hall]; simp⟩⟩
        simp only [test_directory, hw, hdir, if_true, hli, mkdtemp, Option.map, chdir, hpd, hC,
          hsy, hp]
        simp
  | some d =>
    obtain ⟨hd2, hp2⟩ := hids d hli
    obtain ⟨E, D, F, C, evs, r, hsy, hall, hmono⟩ := scopedYield_shape la identifier b
      ({ s with cwd := d, workspace := some w } : S) d hli
    dsimp only at hsy hmono
    refine ⟨d,
      ({ s with
          env := E
          dirs := D
          files := F
          trace := s.trace ++ evs
          cwd := w } : S), r, ?_, rfl, hw, rfl, rfl, hli,
      hmono _ hd2, hp2,
      fun q hq => hmono q hq,
      fun d2 hd2x => ⟨Option.some.inj hd2x, rfl⟩,
      fun hnone => Option.noConfusion hnone,
      fun n2 _ hnone => Option.noConfusion hnone,
      ⟨evs, rfl, all_or_left hall, by
        rw [scopeEvent_onCreateCount _ _ evs hall]; simp⟩⟩
    simp only [test_directory, hw, hdir, if_true, hli, chdir, hp2, hsy, hp]

end ETR
namespace ETR

/-- A collaborator that never fails. -/
def laOK : LogArea := ⟨fun _ => false, fun _ => false, false⟩

/-- A collaborator whose log upload always fails. -/
def laFailLogs : LogArea := ⟨fun _ => true, fun _ => false, false⟩

/-- A constructed-but-not-entered workspace over the root directory `/t`. -/
def sPre : S :=
  { cwd := ["t"]
    env := []
    dirs := [[], ["t"]]
    files := []
    tmpCount := 0
    trace := []
    top_dir := ["t"]
    global_logs := ["t", "logs"]
    global_artifacts := ["t", "artifacts"]
    workspace := none
    identifiers := []
    compressed_workspace := none
    archives := [] }

/-- A fully entered workspace state over the root directory `/t`. -/
def sEnt : S :=
  { cwd := ["t", "workspace"]
    env := []
    dirs := [[], ["t"], ["t", "workspace"], ["t", "logs"], ["t", "artifacts"]]
    files := []
    tmpCount := 0
    trace := []
    top_dir := ["t"]
    global_logs := ["t", "logs"]
    global_artifacts := ["t", "artifacts"]
    workspace := some ["t", "workspace"]
    identifiers := []
    compressed_workspace := none
    archives := [] }

/-- An un-initialised process state whose current directory is `/a`, with a
sibling directory `/b` that the caller can move to. -/
def sAB : S :=
  { cwd := ["a"]
    env := []
    dirs := [[], ["a"], ["b"]]
    files := []
    tmpCount := 0
    trace := []
    top_dir := []
    global_logs := []
    global_artifacts := []
    workspace := none
    identifiers := []
    compressed_workspace := none
    archives := [] }

theorem scopeOrCreate_yields (d : Path) (identifier : String) (evs : List Event)
    (h : evs.all (fun e => scopeEvent d e || isOnCreateFor identifier e) = true) :
    ∀ p, p ∈ yieldsOf evs → p = d := by
  intro p hp
  rw [yieldsOf, List.mem_filterMap] at hp
  obtain ⟨e, he, hfe⟩ := hp
  have hse := List.all_eq_true.1 h e he
  cases e with
  | yieldDir q =>
    have hq : q = p := Option.some.inj hfe
    have hd2 : q = d := by simpa [scopeEvent, isOnCreateFor] using hse
    rw [← hq]
    exact hd2
  | onCreateCall i => exact Option.noConfusion hfe
  | uploadLogsCall q => exact Option.noConfusion hfe
  | uploadArtifactsCall q => exact Option.noConfusion hfe
  | uploadArchiveCall n => exact Option.noConfusion hfe

/-- C5: calling `test_directory` before the workspace has been entered — the
`workspace` attribute is still `None`, or the path is not an existing
directory — raises the `FileNotFoundError` "Workspace not created."
precondition failure and returns the state completely unchanged: in
particular no directory is created. -/
theorem claim_C5 (la : LogArea) (identifier : String)
    (on_create : Option (S → S × Except Err Unit)) (body : Path → S → S × Except Err Unit)
    (s : S)
    (h : s.workspace = none ∨ ∃ w, s.workspace = some w ∧ isDir s w = false) :
    test_directory la identifier on_create body s = (s, Except.error Err.fileNotFound) := by
  unfold test_directory
  rcases h with h | ⟨w, hw, hdir⟩
  · rw [h]
  · rw [hw]
    simp [hdir]

/-- C5 witness: on a concrete constructed-but-unentered workspace the call
fails with `FileNotFoundError` and the state is unchanged. -/
theorem claim_C5_witness :
    test_directory laOK "a" none (fun _ => runBody Body.skip) sPre
      = (sPre, Except.error Err.fileNotFound) :=
  claim_C5 laOK "a" none (fun _ => runBody Body.skip) sPre (Or.inl rfl)

/-- C6: for every `test_directory` scope on an entered workspace (with
well-formed identifier bindings), the working directory is `workspace` again
when control returns — whether the `on_create` callback raised, the body
raised, or everything succeeded. -/
theorem claim_C6 (la : LogArea) (identifier : String) (oc : Option Body) (b : Body)
    (s : S) (w : Path)
    (hw : s.workspace = some w) (hd : w ∈ s.dirs) (hp : pathLe s.top_dir w = true)
    (hids : ∀ d2, lookupId s.identifiers identifier = some d2 →
      d2 ∈ s.dirs ∧ pathLe s.top_dir d2 = true) :
    ((test_directory la identifier (Option.map runBody oc) (fun _ => runBody b) s).1).cwd
      = w := by
  obtain ⟨d, s2, r, heq, hcwd, _⟩ :=
    test_directory_run la identifier oc b s w hw hd hp hids
  rw [heq]
  exact hcwd

/-- C6 witness: concrete runs in which the callback raises, the body raises,
or everything succeeds all hand back control in the workspace directory. -/
theorem claim_C6_witness :
    ((test_directory laOK "a" (Option.map runBody (some (Body.fail 1)))
        (fun _ => runBody Body.skip) sEnt).1).cwd = ["t", "workspace"]
    ∧ ((test_directory laOK "a" (Option.map runBody (none : Option Body))
        (fun _ => runBody (Body.fail 2)) sEnt).1).cwd = ["t", "workspace"]
    ∧ ((test_directory laOK "a" (Option.map runBody (none : Option Body))
        (fun _ => runBody (Body.write "x" "y")) sEnt).1).cwd = ["t", "workspace"] :=
  ⟨claim_C6 laOK "a" (some (Body.fail 1)) Body.skip sEnt ["t", "workspace"] rfl (by decide)
      (by decide) (fun d2 hd2 => Option.noConfusion hd2),
    claim_C6 laOK "a" none (Body.fail 2) sEnt ["t", "workspace"] rfl (by decide)
      (by decide) (fun d2 hd2 => Option.noConfusion hd2),
    claim_C6 laOK "a" none (Body.write "x" "y") sEnt ["t", "workspace"] rfl (by decide)
      (by decide) (fun d2 hd2 => Option.noConfusion hd2)⟩

end ETR
namespace ETR

/-- C3: on an entered workspace, two successive `test_directory` calls with
the same fresh identifier bind it to one directory `d`: the binding is the
same after both calls (it never rebinds), `on_create` is invoked exactly
once across both calls (on the first call only, whatever callback is passed
to the second call), and every directory yielded to either scope body is
that same `d`. -/
theorem claim_C3 (la1 la2 : LogArea) (identifier : String) (c1 : Body) (oc2 : Option Body)
    (b1 b2 : Body) (s s1 s2 : S) (r1 r2 : Except Err Unit) (w : Path)
    (hw : s.workspace = some w) (hd : w ∈ s.dirs) (hp : pathLe s.top_dir w = true)
    (hfresh : lookupId s.identifiers identifier = none)
    (hr1 : test_directory la1 identifier (some (runBody c1)) (fun _ => runBody b1) s
      = (s1, r1))
    (hr2 : test_directory la2 identifier (Option.map runBody oc2) (fun _ => runBody b2) s1
      = (s2, r2)) :
    ∃ d, lookupId s1.identifiers identifier = some d
      ∧ lookupId s2.identifiers identifier = some d
      ∧ onCreateCount identifier s1.trace = onCreateCount identifier s.trace + 1
      ∧ onCreateCount identifier s2.trace = onCreateCount identifier s.trace + 1
      ∧ ∀ p, p ∈ yieldsOf s2.trace → p ∈ yieldsOf s.trace ∨ p = d := by
  rw [show (some (runBody c1) : Option (S → S × Except Err Unit))
      = Option.map runBody (some c1) from rfl] at hr1
  obtain ⟨d, s1x, r1x, heq1, hcwd1, hwsp1, htop1, hgl1, hlk1, hdin1, hpd1, hmono1, hsome1,
      hnone1, hfail1, evs1, htr1, hall1, hcnt1⟩ :=
    test_directory_run la1 identifier (some c1) b1 s w hw hd hp
      (fun d2 hd2 => absurd hd2 (by rw [hfresh]; simp))
  rw [heq1] at hr1
  injection hr1 with hs1 hr1v
  subst hs1
  obtain ⟨d2x, s2x, r2x, heq2, hcwd2, hwsp2, htop2, hgl2, hlk2, hdin2, hpd2, hmono2, hsome2,
      hnone2, hfail2, evs2, htr2, hall2, hcnt2⟩ :=
    test_directory_run la2 identifier oc2 b2 s1x w hwsp1 (hmono1 w hd)
      (by rw [htop1]; exact hp)
      (fun d3 hd3 => by
        rw [hlk1] at hd3
        cases Option.some.inj hd3
        exact ⟨hdin1, by rw [htop1]; exact hpd1⟩)
  rw [heq2] at hr2
  injection hr2 with hs2 hr2v
  subst hs2
  obtain ⟨hd2eq, hid2eq⟩ := hsome2 d hlk1
  rw [hd2eq] at hlk2 hall2
  have hcnt1v : onCreateCount identifier evs1 = 1 := by
    rw [hcnt1, hfresh]
    rfl
  have hcnt2v : onCreateCount identifier evs2 = 0 := by
    rw [hcnt2, hlk1]
    rfl
  refine ⟨d, hlk1, hlk2, ?_, ?_, ?_⟩
  · rw [htr1, onCreateCount_append, hcnt1v]
  · rw [htr2, htr1, onCreateCount_append, onCreateCount_append, hcnt1v, hcnt2v]
  · intro p hp2
    rw [htr2, htr1, yieldsOf_append, yieldsOf_append] at hp2
    rcases List.mem_append.1 hp2 with hp3 | hp3
    · rcases List.mem_append.1 hp3 with hp4 | hp4
      · exact Or.inl hp4
      · exact Or.inr (scopeOrCreate_yields d identifier evs1 hall1 p hp4)
    · exact Or.inr (scopeOrCreate_yields d identifier evs2 hall2 p hp3)

/-- C3 witness: a concrete double call on a fresh identifier, with a callback
on both calls and distinct bodies. -/
theorem claim_C3_witness :
    ∃ d : Path,
      lookupId ((test_directory laOK "a" (some (runBody (Body.write "setup" "s")))
        (fun _ => runBody Body.skip) sEnt).1).identifiers "a" = some d
      ∧ lookupId ((test_directory laOK "a" (Option.map runBody (some (Body.write "setup" "s")))
          (fun _ => runBody (Body.write "out" "o"))
          ((test_directory laOK "a" (some (runBody (Body.write "setup" "s")))
            (fun _ => runBody Body.skip) sEnt).1)).1).identifiers "a" = some d
      ∧ onCreateCount "a" ((test_directory laOK "a" (some (runBody (Body.write "setup" "s")))
          (fun _ => runBody Body.skip) sEnt).1).trace = onCreateCount "a" sEnt.trace + 1
      ∧ onCreateCount "a" ((test_directory laOK "a"
          (Option.map runBody (some (Body.write "setup" "s")))
          (fun _ => runBody (Body.write "out" "o"))
          ((test_directory laOK "a" (some (runBody (Body.write "setup" "s")))
            (fun _ => runBody Body.skip) sEnt).1)).1).trace = onCreateCount "a" sEnt.trace + 1
      ∧ ∀ p, p ∈ yieldsOf ((test_directory laOK "a"
          (Option.map runBody (some (Body.write "setup" "s")))
          (fun _ => runBody (Body.write "out" "o"))
          ((test_directory laOK "a" (some (runBody (Body.write "setup" "s")))
            (fun _ => runBody Body.skip) sEnt).1)).1).trace →
          p ∈ yieldsOf sEnt.trace ∨ p = d :=
  claim_C3 laOK laOK "a" (Body.write "setup" "s") (some (Body.write "setup" "s"))
    Body.skip (Body.write "out" "o") sEnt _ _ _ _ ["t", "workspace"]
    rfl (by decide) (by decide) rfl rfl rfl

/-- C9: if the `on_create` callback raises on the first `test_directory`
call for a fresh identifier, the call fails with the callback's error, but
the identifier→directory binding was already recorded: a later call with
the same identifier finds the binding, reuses the same directory (every
yield is that directory) and never invokes `on_create` again — the count of
callback invocations stays at one. -/
theorem claim_C9 (la1 la2 : LogArea) (identifier : String) (n : Nat) (oc2 : Option Body)
    (b1 b2 : Body) (s s1 s2 : S) (r1 r2 : Except Err Unit) (w : Path)
    (hw : s.workspace = some w) (hd : w ∈ s.dirs) (hp : pathLe s.top_dir w = true)
    (hfresh : lookupId s.identifiers identifier = none)
    (hr1 : test_directory la1 identifier (some (runBody (Body.fail n)))
      (fun _ => runBody b1) s = (s1, r1))
    (hr2 : test_directory la2 identifier (Option.map runBody oc2) (fun _ => runBody b2) s1
      = (s2, r2)) :
    r1 = Except.error (Err.userError n)
    ∧ ∃ d, lookupId s1.identifiers identifier = some d
      ∧ lookupId s2.identifiers identifier = some d
      ∧ onCreateCount identifier s2.trace = onCreateCount identifier s.trace + 1
      ∧ ∀ p, p ∈ yieldsOf s2.trace → p ∈ yieldsOf s.trace ∨ p = d := by
  rw [show (some (runBody (Body.fail n)) : Option (S → S × Except Err Unit))
      = Option.map runBody (some (Body.fail n)) from rfl] at hr1
  obtain ⟨d, s1x, r1x, heq1, hcwd1, hwsp1, htop1, hgl1, hlk1, hdin1, hpd1, hmono1, hsome1,
      hnone1, hfail1, evs1, htr1, hall1, hcnt1⟩ :=
    test_directory_run la1 identifier (some (Body.fail n)) b1 s w hw hd hp
      (fun d2 hd2 => absurd hd2 (by rw [hfresh]; simp))
  rw [heq1] at hr1
  injection hr1 with hs1 hr1v
  subst hs1
  obtain ⟨d2x, s2x, r2x, heq2, hcwd2, hwsp2, htop2, hgl2, hlk2, hdin2, hpd2, hmono2, hsome2,
      hnone2, hfail2, evs2, htr2, hall2, hcnt2⟩ :=
    test_directory_run la2 identifier oc2 b2 s1x w hwsp1 (hmono1 w hd)
      (by rw [htop1]; exact hp)
      (fun d3 hd3 => by
        rw [hlk1] at hd3
        cases Option.some.inj hd3
        exact ⟨hdin1, by rw [htop1]; exact hpd1⟩)
  rw [heq2] at hr2
  injection hr2 with hs2 hr2v
  subst hs2
  obtain ⟨hd2eq, hid2eq⟩ := hsome2 d hlk1
  rw [hd2eq] at hlk2 hall2
  have hcnt1v : onCreateCount identifier evs1 = 1 := by
    rw [hcnt1, hfresh]
    rfl
  have hcnt2v : onCreateCount identifier evs2 = 0 := by
    rw [hcnt2, hlk1]
    rfl
  refine ⟨?_, d, hlk1, hlk2, ?_, ?_⟩
  · rw [← hr1v]
    exact hfail1 n rfl hfresh
  · rw [htr2, htr1, onCreateCount_append, onCreateCount_append, hcnt1v, hcnt2v]
  · intro p hp2
    rw [htr2, htr1, yieldsOf_append, yieldsOf_append] at hp2
    rcases List.mem_append.1 hp2 with hp3 | hp3
    · rcases List.mem_append.1 hp3 with hp4 | hp4
      · exact Or.inl hp4
      · exact Or.inr (scopeOrCreate_yields d identifier evs1 hall1 p hp4)
    · exact Or.inr (scopeOrCreate_yields d identifier evs2 hall2 p hp3)

/-- C9 witness: a concrete first call whose callback raises, followed by a
second call that reuses the recorded binding without a new callback. -/
theorem claim_C9_witness :
    (test_directory laOK "a" (some (runBody (Body.fail 5)))
        (fun _ => runBody Body.skip) sEnt).2 = Except.error (Err.userError 5)
    ∧ ∃ d : Path,
      lookupId ((test_directory laOK "a" (some (runBody (Body.fail 5)))
        (fun _ => runBody Body.skip) sEnt).1).identifiers "a" = some d
      ∧ lookupId ((test_directory laOK "a" (Option.map runBody (some (Body.fail 6)))
          (fun _ => runBody Body.skip)
          ((test_directory laOK "a" (some (runBody (Body.fail 5)))
            (fun _ => runBody Body.skip) sEnt).1)).1).identifiers "a" = some d
      ∧ onCreateCount "a" ((test_directory laOK "a" (Option.map runBody (some (Body.fail 6)))
          (fun _ => runBody Body.skip)
          ((test_directory laOK "a" (some (runBody (Body.fail 5)))
            (fun _ => runBody Body.skip) sEnt).1)).1).trace = onCreateCount "a" sEnt.trace + 1
      ∧ ∀ p, p ∈ yieldsOf ((test_directory laOK "a"
          (Option.map runBody (some (Body.fail 6)))
          (fun _ => runBody Body.skip)
          ((test_directory laOK "a" (some (runBody (Body.fail 5)))
            (fun _ => runBody Body.skip) sEnt).1)).1).trace →
          p ∈ yieldsOf sEnt.trace ∨ p = d :=
  claim_C9 laOK laOK "a" 5 (some (Body.fail 6)) Body.skip Body.skip sEnt _ _ _ _
    ["t", "workspace"] rfl (by decide) (by decide) rfl rfl rfl

end ETR
namespace ETR

theorem compress_shape (s : S) : ∃ ar cw r,
    compress s = ({ s with archives := ar, compressed_workspace := cw }, r) := by
  cases hws : s.workspace with
  | none =>
    refine ⟨s.archives, s.compressed_workspace, Except.error Err.fileNotFound, ?_⟩
    simp only [compress, hws]
    rw [← hws]
  | some w =>
    by_cases hdir : isDir s w = true
    · cases hr1 : relative_to (s.top_dir ++ ["workspace"]) s.cwd with
      | error e =>
        refine ⟨s.archives, s.compressed_workspace, Except.error e, ?_⟩
        simp only [compress, hws, hdir, if_true, hr1]
        rw [← hws]
      | ok bn =>
        cases hr2 : relative_to s.top_dir s.cwd with
        | error e =>
          refine ⟨s.archives, s.compressed_workspace, Except.error e, ?_⟩
          simp only [compress, hws, hdir, if_true, hr1, hr2]
          rw [← hws]
        | ok rd =>
          cases hr3 : relative_to w s.cwd with
          | error e =>
            refine ⟨s.archives, s.compressed_workspace, Except.error e, ?_⟩
            simp only [compress, hws, hdir, if_true, hr1, hr2, hr3]
            rw [← hws]
          | ok bd =>
            by_cases hb : isDir s (s.cwd ++ rd ++ bd) = true
            · refine ⟨s.archives ++ [⟨s.cwd ++ (bn.dropLast ++ [bn.getLastD "" ++ ".tar.gz"]),
                ((treePaths s).filter (fun p => pathLe (s.cwd ++ rd ++ bd) p)).map
                  (fun p => bd ++ p.drop (s.cwd ++ rd ++ bd).length)⟩],
                some (bn.dropLast ++ [bn.getLastD "" ++ ".tar.gz"]), Except.ok (), ?_⟩
              simp only [compress, hws, hdir, if_true, hr1, hr2, hr3, make_archive, hb]
            · refine ⟨s.archives, s.compressed_workspace, Except.error Err.fileNotFound, ?_⟩
              simp only [compress, hws, hdir, if_true, hr1, hr2, hr3, make_archive, hb,
                Bool.false_eq_true, if_false]
              rw [← hws]
    · refine ⟨s.archives, s.compressed_workspace, Except.error Err.fileNotFound, ?_⟩
      simp only [compress, hws, hdir, Bool.false_eq_true, if_false]
      rw [← hws]

theorem compress_at_top (s : S) (w : Path) (hws : s.workspace = some w) (hd : w ∈ s.dirs)
    (hcwd : s.cwd = s.top_dir) (hp : pathLe s.top_dir w = true) :
    compress s = ({ s with
        archives := s.archives ++ [⟨s.top_dir ++ ["workspace.tar.gz"],
          ((treePaths s).filter (fun p => pathLe w p)).map
            (fun p => (w.drop s.top_dir.length) ++ p.drop w.length)⟩],
        compressed_workspace := some ["workspace.tar.gz"] }, Except.ok ()) := by
  have hdir : isDir s w = true := by simp [isDir, hd]
  have hr1 : relative_to (s.top_dir ++ ["workspace"]) s.top_dir = Except.ok ["workspace"] := by
    unfold relative_to
    rw [if_pos (pathLe_self_append s.top_dir ["workspace"]), drop_append_self]
  have hr2 : relative_to s.top_dir s.top_dir = Except.ok [] := by
    unfold relative_to
    rw [if_pos (pathLe_refl s.top_dir), List.drop_length]
  have hr3 : relative_to w s.top_dir = Except.ok (w.drop s.top_dir.length) := by
    unfold relative_to
    rw [if_pos hp]
  have habs : s.top_dir ++ [] ++ w.drop s.top_dir.length = w := by
    rw [List.append_nil, drop_of_pathLe hp]
  have hb : isDir s (s.top_dir ++ [] ++ w.drop s.top_dir.length) = true := by
    rw [habs]
    exact hdir
  have hfile : (["workspace"] : Path).dropLast ++ [(["workspace"] : Path).getLastD "" ++ ".tar.gz"]
      = ["workspace.tar.gz"] := by decide
  simp only [compress, make_archive, hws, hdir, if_true, hr1, hr2, hr3, habs, hb, hfile, hcwd]

end ETR
namespace ETR

/-- C10: `compress` is partial in the process working directory because all
its paths go through `relative_to(Path.cwd())`: whenever it returns
successfully the current working directory was `top_dir` or an ancestor of
it (a path prefix), and on an existing workspace with the current working
directory not on that prefix chain — e.g. still inside the workspace — it
raises `ValueError` and leaves the state unchanged: no archive is
produced. -/
theorem claim_C10 (s : S) :
    ((compress s).2 = Except.ok () → pathLe s.cwd s.top_dir = true)
    ∧ (∀ w, s.workspace = some w → isDir s w = true → pathLe s.cwd s.top_dir = false →
        compress s = (s, Except.error Err.valueError)) := by
  constructor
  · intro hok
    by_cases h2 : pathLe s.cwd s.top_dir = true
    · exact h2
    · exfalso
      cases hws : s.workspace with
      | none => simp [compress, hws] at hok
      | some w =>
        by_cases hdir : isDir s w = true
        · have hr2 : relative_to s.top_dir s.cwd = Except.error Err.valueError := by
            unfold relative_to
            rw [if_neg h2]
          cases hr1 : relative_to (s.top_dir ++ ["workspace"]) s.cwd with
          | error e => simp [compress, hws, hdir, hr1] at hok
          | ok bn => simp [compress, hws, hdir, hr1, hr2] at hok
        · simp [compress, hws, hdir] at hok
  · intro w hws hdir hcwd
    have h2 : ¬pathLe s.cwd s.top_dir = true := by rw [hcwd]; simp
    have hr2 : relative_to s.top_dir s.cwd = Except.error Err.valueError := by
      unfold relative_to
      rw [if_neg h2]
    cases hr1 : relative_to (s.top_dir ++ ["workspace"]) s.cwd with
    | error e =>
      have he : e = Err.valueError := by
        unfold relative_to at hr1
        by_cases h1 : pathLe s.cwd (s.top_dir ++ ["workspace"]) = true
        · rw [if_pos h1] at hr1
          exact Except.noConfusion hr1
        · rw [if_neg h1] at hr1
          cases hr1
          rfl
      subst he
      simp [compress, hws, hdir, hr1]
    | ok bn =>
      simp [compress, hws, hdir, hr1, hr2]

/-- C10 witness: with the working directory still inside the workspace,
`compress` raises `ValueError` and produces nothing; and a successful
concrete run certifies the prefix condition. -/
theorem claim_C10_witness :
    pathLe sEnt.cwd sEnt.top_dir = false
    ∧ compress sEnt = (sEnt, Except.error Err.valueError)
    ∧ pathLe (chdir sEnt ["t"]).cwd (chdir sEnt ["t"]).top_dir = true :=
  ⟨by decide,
    (claim_C10 sEnt).2 ["t", "workspace"] rfl (by decide) (by decide),
    (claim_C10 (chdir sEnt ["t"])).1 (by decide)⟩

/-- C8: on an entered workspace with the default workspace directory and the
working directory restored to `top_dir`, `compress` succeeds and produces
exactly one new archive: a `.tar.gz` named after the workspace directory,
placed in `top_dir`, whose members are exactly the workspace tree with
paths relative to `top_dir` (so anchored at the base name `workspace`), and
records the resulting relative path in `compressed_workspace`. -/
theorem claim_C8 (s : S) (hws : s.workspace = some (s.top_dir ++ ["workspace"]))
    (hd : s.top_dir ++ ["workspace"] ∈ s.dirs) (hcwd : s.cwd = s.top_dir) :
    compress s = ({ s with
        archives := s.archives ++ [⟨s.top_dir ++ ["workspace.tar.gz"],
          ((treePaths s).filter (fun p => pathLe (s.top_dir ++ ["workspace"]) p)).map
            (fun p => p.drop s.top_dir.length)⟩],
        compressed_workspace := some ["workspace.tar.gz"] }, Except.ok ()) := by
  rw [compress_at_top s (s.top_dir ++ ["workspace"]) hws hd hcwd
    (pathLe_self_append s.top_dir ["workspace"])]
  rw [drop_append_self]
  have hmem : ∀ p ∈ (treePaths s).filter (fun p => pathLe (s.top_dir ++ ["workspace"]) p),
      (fun p => ["workspace"] ++ p.drop (s.top_dir ++ ["workspace"]).length) p
        = (fun p => p.drop s.top_dir.length) p := by
    intro p hp
    have hle : pathLe (s.top_dir ++ ["workspace"]) p = true := by
      simpa using (List.mem_filter.1 hp).2
    obtain ⟨t, rfl⟩ := (pathLe_iff _ _).1 hle
    simp only []
    rw [drop_append_self, List.append_assoc, drop_append_self]
  rw [List.map_congr_left hmem]

/-- C8 witness: a concrete compress call on an entered workspace containing
one file. -/
theorem claim_C8_witness :
    compress (chdir { sEnt with files := [(["t", "workspace", "out.txt"], "x")] } ["t"])
      = ({ (chdir { sEnt with files := [(["t", "workspace", "out.txt"], "x")] } ["t"]) with
          archives := [⟨["t", "workspace.tar.gz"],
            [["workspace"], ["workspace", "out.txt"]]⟩],
          compressed_workspace := some ["workspace.tar.gz"] }, Except.ok ()) := by
  have h := claim_C8 (chdir { sEnt with files := [(["t", "workspace", "out.txt"], "x")] } ["t"])
    rfl (by decide) rfl
  rw [h]
  decide

end ETR
namespace ETR

theorem upload_logs_shape (la : LogArea) (p : Path) (s : S) : ∃ r,
    upload_logs la p s = ({ s with trace := s.trace ++ [Event.uploadLogsCall p] }, r) := by
  unfold upload_logs
  by_cases h : la.logsFail p
  · exact ⟨Except.error Err.uploadError, by simp [h]⟩
  · exact ⟨Except.ok (), by simp [h]⟩

theorem upload_artifacts_shape (la : LogArea) (p : Path) (s : S) : ∃ r,
    upload_artifacts la p s
      = ({ s with trace := s.trace ++ [Event.uploadArtifactsCall p] }, r) := by
  unfold upload_artifacts
  by_cases h : la.artifactsFail p
  · exact ⟨Except.error Err.uploadError, by simp [h]⟩
  · exact ⟨Except.ok (), by simp [h]⟩

theorem upload_archive_shape (la : LogArea) (name : String) (s : S) : ∃ r,
    upload_archive la name s
      = ({ s with trace := s.trace ++ [Event.uploadArchiveCall name] }, r) := by
  unfold upload_archive
  by_cases h : la.archiveFail
  · exact ⟨Except.error Err.uploadError, by simp [h]⟩
  · exact ⟨Except.ok (), by simp [h]⟩

theorem wexit_cwd (la : LogArea) (t : S) : ((wexit la t).1).cwd = t.top_dir := by
  obtain ⟨ar, cw, rc, hc⟩ := compress_shape ({ t with cwd := t.top_dir } : S)
  dsimp only at hc
  cases rc with
  | error e => simp only [wexit, chdir, hc]
  | ok u =>
    cases u
    obtain ⟨r1, hu1⟩ := upload_logs_shape la t.global_logs
      ({ t with
          cwd := t.top_dir
          archives := ar
          compressed_workspace := cw } : S)
    dsimp only at hu1
    cases r1 with
    | error e => simp only [wexit, chdir, hc, hu1]
    | ok u1 =>
      cases u1
      obtain ⟨r2, hu2⟩ := upload_artifacts_shape la t.global_artifacts
        ({ t with
            cwd := t.top_dir
            archives := ar
            compressed_workspace := cw
            trace := t.trace ++ [Event.uploadLogsCall t.global_logs] } : S)
      dsimp only at hu2
      cases r2 with
      | error e => simp only [wexit, chdir, hc, hu1, hu2]
      | ok u2 =>
        cases u2
        obtain ⟨r3, hu3⟩ := upload_archive_shape la ((cw.getD []).getLastD "")
          ({ t with
              cwd := t.top_dir
              archives := ar
              compressed_workspace := cw
              trace := t.trace ++ [Event.uploadLogsCall t.global_logs]
                ++ [Event.uploadArtifactsCall t.global_artifacts] } : S)
        dsimp only at hu3
        simp only [wexit, chdir, hc, hu1, hu2, hu3]

theorem wenter_none_top_dir (s : S) : ((wenter none s).1).top_dir = s.top_dir := by
  obtain ⟨D1, r1, h1, _, _⟩ := mkdir_shape
    ({ s with workspace := some (s.top_dir ++ ["workspace"]) } : S)
    (s.top_dir ++ ["workspace"])
  dsimp only at h1
  cases r1 with
  | error e =>
    simp only [wenter, pathLe_self_append, if_true, h1]
  | ok u =>
    cases u
    obtain ⟨D2, r2, h2, _, _⟩ := mkdir_shape
      ({ s with
          workspace := some (s.top_dir ++ ["workspace"])
          dirs := D1 } : S) s.global_logs
    dsimp only at h2
    cases r2 with
    | error e =>
      simp only [wenter, pathLe_self_append, if_true, h1, h2]
    | ok u2 =>
      cases u2
      obtain ⟨D3, r3, h3, _, _⟩ := mkdir_shape
        ({ s with
            workspace := some (s.top_dir ++ ["workspace"])
            dirs := D2 } : S)
        s.global_artifacts
      dsimp only at h3
      cases r3 with
      | error e =>
        simp only [wenter, pathLe_self_append, if_true, h1, h2, h3]
      | ok u3 =>
        cases u3
        simp only [wenter, pathLe_self_append, if_true, h1, h2, h3, chdir]

/-- C4 (amended): `Exit` restores the working directory to `top_dir` — the
directory captured as the current working directory at construction time —
on every run, whatever the collaborator does; when Enter immediately
follows construction this is also the pre-Enter working directory, but it
is `top_dir`, not the pre-Enter directory, that is restored. -/
theorem claim_C4 (la : LogArea) (s : S) :
    ((wexit la s).1).cwd = s.top_dir
    ∧ ∀ s0 : S, ((wexit la ((wenter none (winit s0)).1)).1).cwd = (winit s0).cwd := by
  refine ⟨wexit_cwd la s, ?_⟩
  intro s0
  rw [wexit_cwd la ((wenter none (winit s0)).1), wenter_none_top_dir]
  rfl

/-- C4 counterexample: construct the workspace in `/a`, change directory to
`/b`, then enter and exit: the directory immediately before Enter was `/b`,
but after Exit the process is in `/a` — the claimed round-trip to the
pre-Enter directory fails when the caller moved between construction and
Enter. -/
theorem claim_C4_cex :
    (chdir (winit sAB) ["b"]).cwd = ["b"]
    ∧ ((wexit laOK ((wenter none (chdir (winit sAB) ["b"])).1)).1).cwd = ["a"]
    ∧ (["a"] : Path) ≠ ["b"] := by decide

/-- C1 (amended): the three teardown upload steps of `Exit` are sequential
and not isolated from one another: on an entered workspace, if the global
logs upload fails, `Exit` propagates that failure immediately and neither
the global artifacts upload nor the archive upload is attempted (exactly
one upload event is appended to the trace); likewise, if the logs upload
succeeds but the artifacts upload fails, the archive upload is not
attempted. -/
theorem claim_C1 (la : LogArea) (s : S) (w : Path)
    (hw : s.workspace = some w) (hd : w ∈ s.dirs) (hp : pathLe s.top_dir w = true) :
    (la.logsFail s.global_logs = true →
      (wexit la s).2 = Except.error Err.uploadError
      ∧ ((wexit la s).1).trace = s.trace ++ [Event.uploadLogsCall s.global_logs])
    ∧ (la.logsFail s.global_logs = false → la.artifactsFail s.global_artifacts = true →
      (wexit la s).2 = Except.error Err.uploadError
      ∧ ((wexit la s).1).trace = s.trace ++ [Event.uploadLogsCall s.global_logs,
          Event.uploadArtifactsCall s.global_artifacts]) := by
  have hc := compress_at_top ({ s with cwd := s.top_dir } : S) w hw hd rfl hp
  dsimp only at hc
  constructor
  · intro hfail
    constructor
    · simp only [wexit, chdir, hc, upload_logs, hfail, if_true]
    · simp only [wexit, chdir, hc, upload_logs, hfail, if_true]
  · intro hok hfail2
    constructor
    · simp only [wexit, chdir, hc, upload_logs, upload_artifacts, hok, hfail2,
        Bool.false_eq_true, if_false, if_true]
    · simp only [wexit, chdir, hc, upload_logs, upload_artifacts, hok, hfail2,
        Bool.false_eq_true, if_false, if_true, List.append_assoc, List.cons_append,
        List.nil_append]

/-- C1 witness: a concrete entered workspace whose logs upload fails. -/
theorem claim_C1_witness :
    (wexit laFailLogs sEnt).2 = Except.error Err.uploadError
    ∧ ((wexit laFailLogs sEnt).1).trace
      = sEnt.trace ++ [Event.uploadLogsCall sEnt.global_logs] :=
  (claim_C1 laFailLogs sEnt ["t", "workspace"] rfl (by decide) (by decide)).1 rfl

/-- C1 counterexample: a concrete run in which the logs upload fails and the
full resulting trace contains no artifact-upload and no archive-upload
event — the remaining teardown steps were skipped, not attempted. -/
theorem claim_C1_cex :
    (wexit laFailLogs sEnt).2 = Except.error Err.uploadError
    ∧ ((wexit laFailLogs sEnt).1).trace = [Event.uploadLogsCall ["t", "logs"]] := by decide

end ETR
namespace ETR

theorem mkdir_err (s : S) (p : Path) :
    ∀ e, (mkdir s p).2 = Except.error e → e = Err.fileNotFound := by
  intro e
  unfold mkdir
  by_cases h1 : p ∈ s.dirs
  · simp [h1]
  · by_cases h2 : p.dropLast ∈ s.dirs
    · simp [h1, h2]
    · simp [h1, h2]
      intro h
      exact h.symm

/-- Execution cases of a `collect_logs` scope with a `Body` as its body:
either a directory creation failed before the variables were exported, or
the body raised at a state in which the three variables are exported and
that environment is returned unchanged, or the body returned normally, the
variables were deleted and only upload failures can remain. -/
theorem collect_logs_run (la : LogArea) (p : Path) (b : Body) (s : S) :
    (collect_logs la p (runBody b) s).2 = Except.error Err.fileNotFound
    ∨ (∃ t : S, t.env = envSet (envSet (envSet s.env "TEST_ARTIFACT_PATH"
          (pathStr (p ++ ["artifacts"]))) "ARTIFACT_PATH" (pathStr (p ++ ["artifacts"])))
          "LOG_PATH" (pathStr (p ++ ["logs"]))
        ∧ (∃ e, (runBody b t).2 = Except.error e
            ∧ (collect_logs la p (runBody b) s).2 = Except.error e)
        ∧ ((collect_logs la p (runBody b) s).1).env = t.env)
    ∨ (((collect_logs la p (runBody b) s).2 = Except.ok ()
          ∨ (collect_logs la p (runBody b) s).2 = Except.error Err.uploadError)
        ∧ ((collect_logs la p (runBody b) s).1).env
          = envDel (envDel (envDel (envSet (envSet (envSet s.env "TEST_ARTIFACT_PATH"
              (pathStr (p ++ ["artifacts"]))) "ARTIFACT_PATH" (pathStr (p ++ ["artifacts"])))
              "LOG_PATH" (pathStr (p ++ ["logs"]))) "TEST_ARTIFACT_PATH") "ARTIFACT_PATH")
              "LOG_PATH") := by
  obtain ⟨D1, r1, h1, hm1, _⟩ := mkdir_shape s (p ++ ["logs"])
  cases r1 with
  | error e =>
    have he : e = Err.fileNotFound := mkdir_err s (p ++ ["logs"]) e (by rw [h1])
    subst he
    left
    simp only [collect_logs, h1]
  | ok u =>
    cases u
    obtain ⟨D2, r2, h2, hm2, _⟩ := mkdir_shape ({ s with dirs := D1 } : S) (p ++ ["artifacts"])
    dsimp only at h2
    cases r2 with
    | error e =>
      have he : e = Err.fileNotFound :=
        mkdir_err ({ s with dirs := D1 } : S) (p ++ ["artifacts"]) e (by rw [h2])
      subst he
      left
      simp only [collect_logs, h1, h2]
    | ok u2 =>
      cases u2
      obtain ⟨FL, CW, rB, hB⟩ := runBody_shape b ({ s with
        dirs := D2
        env := envSet (envSet (envSet s.env "TEST_ARTIFACT_PATH"
          (pathStr (p ++ ["artifacts"]))) "ARTIFACT_PATH" (pathStr (p ++ ["artifacts"])))
          "LOG_PATH" (pathStr (p ++ ["logs"])) } : S)
      dsimp only at hB
      cases rB with
      | error e =>
        right
        left
        refine ⟨({ s with
            dirs := D2
            env := envSet (envSet (envSet s.env "TEST_ARTIFACT_PATH"
              (pathStr (p ++ ["artifacts"]))) "ARTIFACT_PATH" (pathStr (p ++ ["artifacts"])))
              "LOG_PATH" (pathStr (p ++ ["logs"])) } : S), rfl, ⟨e, ?_, ?_⟩, ?_⟩
        · rw [hB]
        · simp only [collect_logs, h1, h2, hB]
        · simp only [collect_logs, h1, h2, hB]
      | ok uB =>
        cases uB
        obtain ⟨FL2, hA⟩ := add_to_full_log_shape ({ s with
          dirs := D2
          files := FL
          cwd := CW
          env := envDel (envDel (envDel (envSet (envSet (envSet s.env "TEST_ARTIFACT_PATH"
            (pathStr (p ++ ["artifacts"]))) "ARTIFACT_PATH" (pathStr (p ++ ["artifacts"])))
            "LOG_PATH" (pathStr (p ++ ["logs"]))) "TEST_ARTIFACT_PATH") "ARTIFACT_PATH")
            "LOG_PATH" } : S) (p ++ ["logs"] ++ ["test_output.log"])
        dsimp only at hA
        right
        right
        by_cases hf1 : la.logsFail (p ++ ["logs"])
        · constructor
          · right
            simp only [collect_logs, h1, h2, hB, hA, upload_logs, hf1, if_true]
          · simp only [collect_logs, h1, h2, hB, hA, upload_logs, hf1, if_true]
        · by_cases hf2 : la.artifactsFail (p ++ ["artifacts"])
          · constructor
            · right
              simp only [collect_logs, h1, h2, hB, hA, upload_logs, upload_artifacts, hf1,
                hf2, Bool.false_eq_true, if_false, if_true]
            · simp only [collect_logs, h1, h2, hB, hA, upload_logs, upload_artifacts, hf1,
                hf2, Bool.false_eq_true, if_false, if_true]
          · constructor
            · left
              simp only [collect_logs, h1, h2, hB, hA, upload_logs, upload_artifacts, hf1,
                hf2, Bool.false_eq_true, if_false]
            · simp only [collect_logs, h1, h2, hB, hA, upload_logs, upload_artifacts, hf1,
                hf2, Bool.false_eq_true, if_false]

end ETR
namespace ETR

/-- C2 (amended): the per-scope environment variables `LOG_PATH`,
`ARTIFACT_PATH` and `TEST_ARTIFACT_PATH` are exported for the duration of a
`collect_logs` scope (a body probing all three never sees one missing), and
they are removed when the body returns normally — but the removal is not
exception-safe: when the body raises, the scope propagates the error with
all three variables still set to the scope's paths. -/
theorem claim_C2 (la : LogArea) (p : Path) (s : S) :
    ((collect_logs la p (runBody (Body.seq (Body.checkEnv "LOG_PATH")
        (Body.seq (Body.checkEnv "ARTIFACT_PATH") (Body.checkEnv "TEST_ARTIFACT_PATH")))) s).2
      ≠ Except.error Err.keyError)
    ∧ ∀ b : Body,
        ((collect_logs la p (runBody b) s).2 = Except.ok ()
            ∨ (collect_logs la p (runBody b) s).2 = Except.error Err.uploadError →
          envGet ((collect_logs la p (runBody b) s).1).env "LOG_PATH" = none
          ∧ envGet ((collect_logs la p (runBody b) s).1).env "ARTIFACT_PATH" = none
          ∧ envGet ((collect_logs la p (runBody b) s).1).env "TEST_ARTIFACT_PATH" = none)
        ∧ ∀ n, (collect_logs la p (runBody b) s).2 = Except.error (Err.userError n) →
          envGet ((collect_logs la p (runBody b) s).1).env "LOG_PATH"
              = some (pathStr (p ++ ["logs"]))
          ∧ envGet ((collect_logs la p (runBody b) s).1).env "ARTIFACT_PATH"
              = some (pathStr (p ++ ["artifacts"]))
          ∧ envGet ((collect_logs la p (runBody b) s).1).env "TEST_ARTIFACT_PATH"
              = some (pathStr (p ++ ["artifacts"])) := by
  constructor
  · rcases collect_logs_run la p (Body.seq (Body.checkEnv "LOG_PATH")
        (Body.seq (Body.checkEnv "ARTIFACT_PATH") (Body.checkEnv "TEST_ARTIFACT_PATH"))) s
      with hcase | ⟨t, henv, ⟨e, hre, hr⟩, _⟩ | ⟨hcase, _⟩
    · rw [hcase]
      simp
    · have g1 : envGet t.env "LOG_PATH" = some (pathStr (p ++ ["logs"])) := by
        rw [henv, envGet_envSet_self]
      have g2 : envGet t.env "ARTIFACT_PATH" = some (pathStr (p ++ ["artifacts"])) := by
        rw [henv, envGet_envSet_ne _ _ (by decide), envGet_envSet_self]
      have g3 : envGet t.env "TEST_ARTIFACT_PATH" = some (pathStr (p ++ ["artifacts"])) := by
        rw [henv, envGet_envSet_ne _ _ (by decide), envGet_envSet_ne _ _ (by decide),
          envGet_envSet_self]
      have hok : runBody (Body.seq (Body.checkEnv "LOG_PATH")
          (Body.seq (Body.checkEnv "ARTIFACT_PATH") (Body.checkEnv "TEST_ARTIFACT_PATH"))) t
          = (t, Except.ok ()) := by
        simp [runBody, g1, g2, g3]
      rw [hok] at hre
      exact absurd hre (by simp)
    · rcases hcase with hcase | hcase <;> rw [hcase] <;> simp
  · intro b
    constructor
    · intro hr
      rcases collect_logs_run la p b s with hcase | ⟨t, henv, ⟨e, hre, hrr⟩, _⟩ | ⟨_, henv⟩
      · rcases hr with hr | hr <;> rw [hr] at hcase <;> exact absurd hcase (by simp)
      · rcases runBody_classify b t with hcl | ⟨n, hcl⟩ | hcl
        · rw [hcl] at hre
          exact absurd hre (by simp)
        · rw [hcl] at hre
          have he : e = Err.userError n := (Except.error.inj hre).symm
          subst he
          rw [hrr] at hr
          rcases hr with hr | hr <;> exact absurd hr (by simp)
        · rw [hcl] at hre
          have he : e = Err.keyError := (Except.error.inj hre).symm
          subst he
          rw [hrr] at hr
          rcases hr with hr | hr <;> exact absurd hr (by simp)
      · rw [henv]
        refine ⟨envGet_envDel_self _ _, ?_, ?_⟩
        · rw [envGet_envDel_ne _ (by decide), envGet_envDel_self]
        · rw [envGet_envDel_ne _ (by decide), envGet_envDel_ne _ (by decide),
            envGet_envDel_self]
    · intro n hr
      rcases collect_logs_run la p b s with hcase | ⟨t, henv, ⟨e, hre, hrr⟩, henv2⟩
        | ⟨hcase, _⟩
      · rw [hr] at hcase
        exact absurd hcase (by simp)
      · rw [hrr] at hr
        have he : e = Err.userError n := Except.error.inj hr
        subst he
        rw [henv2, henv]
        refine ⟨envGet_envSet_self _ _ _, ?_, ?_⟩
        · rw [envGet_envSet_ne _ _ (by decide), envGet_envSet_self]
        · rw [envGet_envSet_ne _ _ (by decide), envGet_envSet_ne _ _ (by decide),
            envGet_envSet_self]
      · rcases hcase with hcase | hcase <;> rw [hr] at hcase <;> exact absurd hcase (by simp)

/-- C2 counterexample: a concrete `test_directory` scope whose body raises:
after the scope has closed the error propagates, yet `LOG_PATH` (and the
other two variables) are still set — the claimed removal on the exception
path does not happen. -/
theorem claim_C2_cex :
    (test_directory laOK "i" none (fun _ => runBody (Body.fail 0)) sEnt).2
        = Except.error (Err.userError 0)
    ∧ envGet ((test_directory laOK "i" none (fun _ => runBody (Body.fail 0)) sEnt).1).env
        "LOG_PATH" = some "/t/workspace/tmp0/logs"
    ∧ envGet ((test_directory laOK "i" none (fun _ => runBody (Body.fail 0)) sEnt).1).env
        "ARTIFACT_PATH" = some "/t/workspace/tmp0/artifacts"
    ∧ envGet ((test_directory laOK "i" none (fun _ => runBody (Body.fail 0)) sEnt).1).env
        "TEST_ARTIFACT_PATH" = some "/t/workspace/tmp0/artifacts" := by decide

/-- A concrete state inside an open test directory `tmp0`. -/
def sTd : S := { sEnt with dirs := ["t", "workspace", "tmp0"] :: sEnt.dirs }

/-- C2 witness: at a concrete scope, a normally returning body leaves the
variables removed, and a raising body leaves them set. -/
theorem claim_C2_witness :
    (envGet ((collect_logs laOK ["t", "workspace", "tmp0"]
        (runBody Body.skip) sTd).1).env "LOG_PATH" = none
      ∧ envGet ((collect_logs laOK ["t", "workspace", "tmp0"]
        (runBody Body.skip) sTd).1).env "ARTIFACT_PATH" = none
      ∧ envGet ((collect_logs laOK ["t", "workspace", "tmp0"]
        (runBody Body.skip) sTd).1).env "TEST_ARTIFACT_PATH" = none)
    ∧ envGet ((collect_logs laOK ["t", "workspace", "tmp0"]
        (runBody (Body.fail 3)) sTd).1).env "LOG_PATH"
      = some (pathStr (["t", "workspace", "tmp0"] ++ ["logs"])) :=
  ⟨((claim_C2 laOK ["t", "workspace", "tmp0"] sTd).2 Body.skip).1 (Or.inl (by decide)),
    (((claim_C2 laOK ["t", "workspace", "tmp0"] sTd).2 (Body.fail 3)).2 3 (by decide)).1⟩

end ETR
namespace ETR

/-- C7: `add_to_full_log` — used by `collect_logs` when a test-directory
scope closes — appends the full contents of the report file, in order, to
the cumulative `full_execution.log` under `global_logs` when the report
exists, and is a no-op (returning the state unchanged and raising nothing)
when it does not. -/
theorem claim_C7 (s : S) (report : Path) :
    (∀ c, fsGet s.files report = some c →
      fsGet ((add_to_full_log s report).files) (s.global_logs ++ ["full_execution.log"])
        = some ((fsGet s.files (s.global_logs ++ ["full_execution.log"])).getD "" ++ c))
    ∧ (fsGet s.files report = none → add_to_full_log s report = s) := by
  constructor
  · intro c hc
    unfold add_to_full_log
    rw [hc]
    cases h2 : fsGet s.files (s.global_logs ++ ["full_execution.log"]) with
    | some v =>
      simp only [touch, h2, appendFile]
      rw [fsGet_map_update, h2]
      rfl
    | none =>
      simp only [touch, h2, appendFile]
      rw [fsGet_map_update]
      simp [fsGet]
  · intro h
    unfold add_to_full_log
    rw [h]

/-- A concrete state with a test report and a pre-existing cumulative log. -/
def sLog : S := { sEnt with files :=
  [(["t", "workspace", "tmp0", "logs", "test_output.log"], "OUT"),
    (["t", "logs", "full_execution.log"], "PRE")] }

/-- C7 witness: a concrete run appends the report in order after the
existing cumulative contents, and a missing report changes nothing. -/
theorem claim_C7_witness :
    fsGet ((add_to_full_log sLog ["t", "workspace", "tmp0", "logs", "test_output.log"]).files)
      (["t", "logs", "full_execution.log"]) = some ("PRE" ++ "OUT")
    ∧ add_to_full_log sLog ["t", "nope"] = sLog :=
  ⟨(claim_C7 sLog ["t", "workspace", "tmp0", "logs", "test_output.log"]).1 "OUT" rfl,
    (claim_C7 sLog ["t", "nope"]).2 rfl⟩

end ETR
